import Mathlib

/-!
Verification of the move-only buffer example (`move-only-buffer.cpp`).

The C++ class `Buffer` owns a heap-allocated byte region (`char* data_`,
`size_t size_`).  We embed it shallowly:

* an allocation is identified by a `Nat` id handed out by a monotone
  counter (`Mem.next`), its bytes live in `Mem.contents` (indexed by id);
* `operator delete` is logged in `Mem.freed` (a multiset of ids, so we can
  count how often a given allocation is released; `operator delete` on a
  null pointer is a no-op, exactly as in C++);
* a `Buffer` value is the pair of its two data members: `data_` is
  `Option Nat` (`none` is the null pointer), `size_` a `Nat`;
* allocation failure of `operator new` is modelled by a predicate
  `canAlloc : Nat → Bool`; when it fails the constructor propagates
  `AllocationError` (`std::bad_alloc`) as an `Except`;
* live handles of a program are slots of a list (`State.handles`); a slot
  index plays the role of the object address, so the `this == &other`
  self-assignment guard is index equality; a destroyed handle is `none`.

Each operation of the class is a `step` of a small machine that replays
the member-function bodies of the source literally.
-/

namespace MoveOnlyBuffer

/-- The two data members of the C++ class `Buffer` (lines 64-68 of
`move-only-buffer.cpp`): `data_ : char*` as an optional allocation id
(`none` = `nullptr`), `size_ : size_t` as a `Nat`. -/
structure Buffer where
  data_ : Option Nat
  size_ : Nat
  deriving DecidableEq, Repr

/-- `std::bad_alloc`, thrown by `operator new` when the allocation cannot
be satisfied; the spec calls it `AllocationError`. -/
inductive AllocationError where
  | badAlloc
  deriving DecidableEq, Repr

/-- The memory manager: `next` is the next fresh allocation id, `contents`
holds the bytes of each allocation (indexed by id), `freed` logs every
`operator delete` of a non-null pointer (a multiset of ids). -/
structure Mem where
  next : Nat
  contents : List (List Nat)
  freed : List Nat
  deriving DecidableEq, Repr

/-- `operator delete(data_)`: a no-op on the null pointer, otherwise the
release of allocation `a` is logged. -/
def Mem.release (m : Mem) : Option Nat → Mem
  | none => m
  | some a => { m with freed := a :: m.freed }

/-- Overwrite the bytes of an allocation (the effect of `std::copy` into a
freshly allocated buffer). Writing through the null pointer never happens
in the source; we make it a no-op. -/
def Mem.write (m : Mem) : Option Nat → List Nat → Mem
  | none, _ => m
  | some a, bytes => { m with contents := m.contents.set a bytes }

/-- Read `n` bytes starting at pointer `p`: this is what
`std::string(data_, size_)` does.  Reading zero bytes is safe from any
pointer (including null) and yields the empty byte sequence; reading a
positive count needs a live allocation at least that long, otherwise the
access faults (`none`). -/
def Mem.read (m : Mem) (p : Option Nat) (n : Nat) : Option (List Nat) :=
  if n = 0 then some []
  else
    match p with
    | none => none
    | some a =>
      match m.contents[a]? with
      | some bytes => if n ≤ bytes.length then some (bytes.take n) else none
      | none => none

/-- `explicit Buffer(size_t n)` (line 17-18): allocate an uninitialized
buffer of `n` bytes via `operator new(n)`; if the allocation cannot be
satisfied, `AllocationError` propagates to the caller. -/
def Buffer.create (canAlloc : Nat → Bool) (n : Nat) (m : Mem) :
    Except AllocationError (Buffer × Mem) :=
  if canAlloc n then
    .ok ({ data_ := some m.next, size_ := n },
         { next := m.next + 1,
           contents := m.contents ++ [List.replicate n 0],
           freed := m.freed })
  else
    .error .badAlloc

/-- `strlen` on a NUL-terminated byte sequence: the number of bytes before
the first `0`. -/
def strlenL (s : List Nat) : Nat := (s.takeWhile (fun c => c != 0)).length

/-- `explicit Buffer(const char* str)` (lines 21-23): delegate to
`Buffer(strlen(str))`, then `std::copy(str, str + size_, data_)`. -/
def Buffer.fromCStr (canAlloc : Nat → Bool) (s : List Nat) (m : Mem) :
    Except AllocationError (Buffer × Mem) :=
  match Buffer.create canAlloc (strlenL s) m with
  | .error e => .error e
  | .ok (b, m2) => .ok (b, m2.write b.data_ (s.takeWhile (fun c => c != 0)))

/-- `Buffer(Buffer&& other)` (lines 31-34): the new instance takes
`other.data_` and `other.size_`, then `other.data_ = nullptr;
other.size_ = 0;`.  Result: `(new instance, source afterwards)`.  The
memory is untouched: no byte is copied, nothing is allocated or freed. -/
def Buffer.moveCtor (other : Buffer) : Buffer × Buffer :=
  ({ data_ := other.data_, size_ := other.size_ }, { data_ := none, size_ := 0 })

/-- `std::string to_string() const` (line 54): interpret the `size_` bytes
at `data_` as text. -/
def Buffer.to_string (m : Mem) (b : Buffer) : Option (List Nat) :=
  m.read b.data_ b.size_

/-- `Buffer& operator=(Buffer&& other)` (lines 37-48), the branch where
`this != &other`: `operator delete(data_)`, take the source's members,
null the source.  Arguments: the current values of `*this` and `other` and
the memory; result: `(new *this, other afterwards, memory afterwards)`.
The aliasing guard itself lives in `step` below, where object identity
(slot index) exists. -/
def Buffer.moveAssign (self other : Buffer) (m : Mem) : Buffer × Buffer × Mem :=
  ({ data_ := other.data_, size_ := other.size_ },
   { data_ := none, size_ := 0 },
   m.release self.data_)

/-- `~Buffer()` (line 51): `operator delete(data_)`. -/
def Buffer.destructor (self : Buffer) (m : Mem) : Mem :=
  m.release self.data_

/-- The complete capability set of the handle type.  These are exactly the
operations the class exposes (both constructors, move-construction,
move-assignment, destruction); a copy constructor and a copy assignment
are `= delete`d in the source (lines 26-28) and therefore absent. -/
inductive Op where
  | mkSize (n : Nat)
  | mkStr (s : List Nat)
  | moveCtorInto (src : Nat)
  | moveAssign (dst src : Nat)
  | destroy (h : Nat)
  deriving DecidableEq, Repr

/-- A program state: the live handle objects (`none` = destroyed slot; a
slot index plays the role of the object's address) and the memory. -/
structure State where
  handles : List (Option Buffer)
  mem : Mem
  deriving DecidableEq, Repr

/-- One operation on the program state, replaying the corresponding member
function of the C++ class.  A failed allocation leaves the state unchanged
(the exception propagates, no object is created); an operation on a
destroyed or absent slot is a no-op (such a call never occurs in a
well-formed program). -/
def step (canAlloc : Nat → Bool) : Op → State → State
  | .mkSize n, s =>
    match Buffer.create canAlloc n s.mem with
    | .ok (b, m2) => { handles := s.handles ++ [some b], mem := m2 }
    | .error _ => s
  | .mkStr str, s =>
    match Buffer.fromCStr canAlloc str s.mem with
    | .ok (b, m2) => { handles := s.handles ++ [some b], mem := m2 }
    | .error _ => s
  | .moveCtorInto src, s =>
    match s.handles[src]? with
    | some (some b) =>
      { handles := (s.handles.set src (some (Buffer.moveCtor b).2))
                     ++ [some (Buffer.moveCtor b).1],
        mem := s.mem }
    | _ => s
  | .moveAssign dst src, s =>
    -- `if (this == &other) return *this;` (line 38-39)
    if dst = src then s
    else
      match s.handles[dst]?, s.handles[src]? with
      | some (some bd), some (some bs) =>
        { handles := (s.handles.set dst
                        (some (Buffer.moveAssign bd bs s.mem).1)).set src
                        (some (Buffer.moveAssign bd bs s.mem).2.1),
          mem := (Buffer.moveAssign bd bs s.mem).2.2 }
      | _, _ => s
  | .destroy h, s =>
    match s.handles[h]? with
    | some (some b) =>
      { handles := s.handles.set h none, mem := Buffer.destructor b s.mem }
    | _ => s

/-- Does this handle slot own allocation `a`? -/
def ownsP (a : Nat) : Option Buffer → Bool
  | some b => decide (b.data_ = some a)
  | none => false

/-- Number of live handle slots owning allocation `a`. -/
def countOwn (hs : List (Option Buffer)) (a : Nat) : Nat := hs.countP (ownsP a)

/-- The exclusive-ownership invariant: every allocation that has been
handed out (`a < next`) is accounted for exactly once, either as owned by
a live handle or as released; ids never handed out are neither owned nor
released.  In particular at most one live handle owns a given allocation,
and no allocation is released twice. -/
def Inv (s : State) : Prop :=
  ∀ a : Nat,
    countOwn s.handles a + s.mem.freed.count a
      = if a < s.mem.next then 1 else 0

/-! ### Counting helper lemmas -/

theorem countP_set_add {α : Type} (p : α → Bool) (l : List α) (i : Nat) (x : α)
    (h : i < l.length) :
    (l.set i x).countP p + (if p l[i] then 1 else 0)
      = l.countP p + (if p x then 1 else 0) := by
  induction l generalizing i with
  | nil => simp at h
  | cons a l ih =>
    cases i with
    | zero =>
      simp [List.countP_cons]
      omega
    | succ i =>
      have hi : i < l.length := by simpa using h
      have := ih i hi
      simp [List.countP_cons]
      omega

theorem countOwn_append (hs hs2 : List (Option Buffer)) (a : Nat) :
    countOwn (hs ++ hs2) a = countOwn hs a + countOwn hs2 a :=
  List.countP_append ..

theorem countOwn_set_add (hs : List (Option Buffer)) (i : Nat)
    (x : Option Buffer) (a : Nat) (h : i < hs.length) :
    countOwn (hs.set i x) a + (if ownsP a hs[i] then 1 else 0)
      = countOwn hs a + (if ownsP a x then 1 else 0) :=
  countP_set_add (ownsP a) hs i x h

theorem countOwn_singleton (ob : Option Buffer) (a : Nat) :
    countOwn [ob] a = if ownsP a ob then 1 else 0 := by
  simp [countOwn, List.countP_cons]

theorem create_ok {canAlloc : Nat → Bool} {n : Nat} {m : Mem} {b : Buffer}
    {m2 : Mem} (h : Buffer.create canAlloc n m = .ok (b, m2)) :
    canAlloc n = true
    ∧ b = { data_ := some m.next, size_ := n }
    ∧ m2 = { next := m.next + 1,
             contents := m.contents ++ [List.replicate n 0],
             freed := m.freed } := by
  unfold Buffer.create at h
  split at h
  · simp only [Except.ok.injEq, Prod.mk.injEq] at h
    exact ⟨by assumption, h.1.symm, h.2.symm⟩
  · exact absurd h (by simp)

theorem fromCStr_ok {canAlloc : Nat → Bool} {s : List Nat} {m : Mem}
    {b : Buffer} {m2 : Mem}
    (h : Buffer.fromCStr canAlloc s m = .ok (b, m2)) :
    canAlloc (strlenL s) = true
    ∧ b = { data_ := some m.next, size_ := strlenL s }
    ∧ m2 = { next := m.next + 1,
             contents := (m.contents ++ [List.replicate (strlenL s) 0]).set
               m.next (s.takeWhile (fun c => c != 0)),
             freed := m.freed } := by
  unfold Buffer.fromCStr at h
  split at h
  · exact absurd h (by simp)
  · rename_i b2 m3 heq
    obtain ⟨hc, hb, hm⟩ := create_ok heq
    simp only [Except.ok.injEq, Prod.mk.injEq] at h
    refine ⟨hc, by rw [← h.1, hb], ?_⟩
    rw [← h.2, hm, hb]
    simp [Mem.write]

/-- Preservation: every operation of the capability set preserves the
exclusive-ownership accounting invariant. -/
theorem Inv_step (canAlloc : Nat → Bool) (op : Op) (s : State) (h : Inv s) :
    Inv (step canAlloc op s) := by
  cases op with
  | mkSize n =>
    simp only [step]
    split
    case h_2 => exact h
    case h_1 b m2 heq =>
      obtain ⟨hc, hb, hm⟩ := create_ok heq
      subst hb hm
      intro a
      have ha := h a
      simp only [countOwn_append, countOwn_singleton, ownsP, Option.some.injEq]
      by_cases hxa : s.mem.next = a
      · subst hxa
        simp at ha ⊢
        omega
      · simp [hxa]
        rw [ha]
        by_cases hlt : a < s.mem.next
        · rw [if_pos hlt, if_pos (by omega)]
        · rw [if_neg hlt, if_neg (by omega)]
  | mkStr str =>
    simp only [step]
    split
    case h_2 => exact h
    case h_1 b m2 heq =>
      obtain ⟨hc, hb, hm⟩ := fromCStr_ok heq
      subst hb hm
      intro a
      have ha := h a
      simp only [countOwn_append, countOwn_singleton, ownsP, Option.some.injEq]
      by_cases hxa : s.mem.next = a
      · subst hxa
        simp at ha ⊢
        omega
      · simp [hxa]
        rw [ha]
        by_cases hlt : a < s.mem.next
        · rw [if_pos hlt, if_pos (by omega)]
        · rw [if_neg hlt, if_neg (by omega)]
  | moveCtorInto src =>
    simp only [step]
    split
    case h_2 => exact h
    case h_1 b heq =>
      obtain ⟨hlt, hget⟩ := List.getElem?_eq_some.mp heq
      intro a
      have ha := h a
      have E1 := countOwn_set_add s.handles src (some (Buffer.moveCtor b).2) a hlt
      rw [hget] at E1
      simp only [countOwn_append, countOwn_singleton]
      simp only [Buffer.moveCtor, ownsP] at E1 ⊢
      by_cases hba : b.data_ = some a
      · simp [hba] at E1 ⊢
        omega
      · simp [hba] at E1 ⊢
        omega
  | moveAssign dst src =>
    simp only [step]
    by_cases hds : dst = src
    · rw [if_pos hds]
      exact h
    · rw [if_neg hds]
      split
      next bd bs heqd heqs =>
        obtain ⟨hltd, hgetd⟩ := List.getElem?_eq_some.mp heqd
        obtain ⟨hlts, hgets⟩ := List.getElem?_eq_some.mp heqs
        intro a
        have ha := h a
        have E1 := countOwn_set_add s.handles dst
          (some (Buffer.moveAssign bd bs s.mem).1) a hltd
        rw [hgetd] at E1
        have hlts1 : src < (s.handles.set dst
            (some (Buffer.moveAssign bd bs s.mem).1)).length := by
          simpa using hlts
        have E2 := countOwn_set_add (s.handles.set dst
          (some (Buffer.moveAssign bd bs s.mem).1)) src
          (some (Buffer.moveAssign bd bs s.mem).2.1) a hlts1
        rw [List.getElem_set_ne hds hlts1, hgets] at E2
        simp only [Buffer.moveAssign, ownsP] at E1 E2 ⊢
        clear hlts1 heqd heqs hgetd hgets
        obtain ⟨bdd, bdsz⟩ := bd
        simp only at E1 ⊢
        cases hbd : bdd with
        | none =>
          simp only [hbd, Mem.release] at E1 ⊢
          by_cases hbsa : bs.data_ = some a
          · simp [hbsa] at E1 E2 ⊢
            omega
          · simp [hbsa] at E1 E2 ⊢
            omega
        | some ad =>
          simp only [hbd, Mem.release] at E1 ⊢
          by_cases hada : ad = a
          · subst hada
            simp [List.count_cons] at E1 E2 ⊢
            by_cases hbsa : bs.data_ = some ad
            · simp [hbsa] at E1 E2 ⊢
              omega
            · simp [hbsa] at E1 E2 ⊢
              omega
          · simp [List.count_cons, hada] at E1 E2 ⊢
            by_cases hbsa : bs.data_ = some a
            · simp [hbsa] at E1 E2 ⊢
              omega
            · simp [hbsa] at E1 E2 ⊢
              omega
      next =>
        exact h
  | destroy hh =>
    simp only [step]
    split
    case h_2 => exact h
    case h_1 b heq =>
      obtain ⟨hlt, hget⟩ := List.getElem?_eq_some.mp heq
      intro a
      have ha := h a
      have E1 := countOwn_set_add s.handles hh none a hlt
      rw [hget] at E1
      simp only [ownsP] at E1
      cases hbd : b.data_ with
      | none =>
        simp only [hbd, Buffer.destructor, Mem.release] at E1 ⊢
        simp at E1
        omega
      | some ad =>
        simp only [hbd, Buffer.destructor, Mem.release] at E1 ⊢
        by_cases hada : ad = a
        · subst hada
          simp [List.count_cons] at E1 ⊢
          omega
        · simp [List.count_cons, hada] at E1 ⊢
          omega

/-! ### The textual constructor, evaluated -/

theorem takeWhile_nz_eq_self {s : List Nat} (hnz : ∀ c ∈ s, c ≠ 0) :
    s.takeWhile (fun c => c != 0) = s := by
  rw [List.takeWhile_eq_self_iff]
  intro a ha
  simp [hnz a ha]

theorem fromCStr_spec (canAlloc : Nat → Bool) (s : List Nat) (m : Mem)
    (hnz : ∀ c ∈ s, c ≠ 0) (hok : canAlloc s.length = true)
    (hwf : m.contents.length = m.next) :
    ∃ b m2, Buffer.fromCStr canAlloc s m = .ok (b, m2)
      ∧ b = { data_ := some m.next, size_ := s.length }
      ∧ m2.next = m.next + 1
      ∧ m2.freed = m.freed
      ∧ m2.contents.length = m2.next
      ∧ Buffer.to_string m2 b = some s := by
  have htw : s.takeWhile (fun c => c != 0) = s := takeWhile_nz_eq_self hnz
  have hsl : strlenL s = s.length := by rw [strlenL, htw]
  have hres : Buffer.fromCStr canAlloc s m
      = .ok ({ data_ := some m.next, size_ := s.length },
             { next := m.next + 1,
               contents := (m.contents ++ [List.replicate s.length 0]).set
                 m.next s,
               freed := m.freed }) := by
    unfold Buffer.fromCStr Buffer.create
    rw [hsl, hok]
    simp [Mem.write, htw]
  refine ⟨_, _, hres, rfl, rfl, rfl, ?_, ?_⟩
  · simp [hwf]
  · have hlook : ((m.contents ++ [List.replicate s.length 0]).set
        m.next s)[m.next]? = some s := by
      rw [List.getElem?_set_self (by simp; omega)]
    cases s with
    | nil => simp [Buffer.to_string, Mem.read]
    | cons c cs =>
      simp only [Buffer.to_string, Mem.read]
      rw [if_neg (by simp)]
      rw [hlook]
      simp

/-! ### Value categories: the ref-qualified overloads of `Buffer::test` -/

/-- The value category of the expression a member function is invoked on:
a named, still-live object is an l-value (persistent value), a
temporary/expiring object is an r-value (transient value). -/
inductive ValueCategory where
  | lvalue
  | rvalue
  deriving DecidableEq, Repr

/-- The ref-qualified overload pair `void test() &` / `void test() &&`
(lines 57-62): overload resolution keys on the value category of the
receiver (the same receiver type in both overloads) and the chosen
overload prints which case it is. -/
def Buffer.test (b : Buffer) : ValueCategory → String
  | .lvalue => "test: \x27this\x27 is a l-value"
  | .rvalue => "test: \x27this\x27 is a r-value"

/-- The template argument `Type` deduced for the forwarding parameter
`Type&& value` of `work_buffer` (lines 116-122): an l-value argument of
type `Buffer` deduces `Type = Buffer&`, an r-value deduces
`Type = Buffer`. -/
inductive DeducedType where
  | lvalueRef
  | plain
  deriving DecidableEq, Repr

/-- Template argument deduction against a forwarding reference. -/
def deduceTemplateArg : ValueCategory → DeducedType
  | .lvalue => .lvalueRef
  | .rvalue => .plain

/-- Reference collapsing in `std::forward<Type>(value)`: `Buffer& &&`
collapses to `Buffer&` (l-value), `Buffer &&` stays an r-value. -/
def forwardedCategory : DeducedType → ValueCategory
  | .lvalueRef => .lvalue
  | .plain => .rvalue

/-- `template <typename Type> void work_buffer(Type&& value)`
(lines 116-122): deduce `Type` from the call-site value category, then
invoke `test()` on `std::forward<Type>(value)`. -/
def work_buffer (c : ValueCategory) (b : Buffer) : String :=
  Buffer.test b (forwardedCategory (deduceTemplateArg c))

/-- The byte sequence of the string literal `"new buffer"` (line 110). -/
def newBufferBytes : List Nat := "new buffer".data.map Char.toNat

/-- `Buffer make_buffer()` (lines 109-113): construct a local
`Buffer b("new buffer")` and `return b;` — no `std::move` on the return
expression, so the return is eligible for copy elision (NRVO): the caller
receives the very object that was constructed, and no further operation
runs.  The function therefore denotes exactly one constructor call. -/
def make_buffer (canAlloc : Nat → Bool) (m : Mem) :
    Except AllocationError (Buffer × Mem) :=
  Buffer.fromCStr canAlloc newBufferBytes m

/-! ### Claim theorems -/

/-- C5: Sized construction: for every valid size `n`, `create(n)` yields a
handle whose content length equals `n` whenever the allocation can be
satisfied, and fails with `AllocationError` exactly when it cannot, the
error propagating to the caller as the result of the call. -/
theorem claim_C5_sized_construction (canAlloc : Nat → Bool) (n : Nat)
    (m : Mem) (hwf : m.contents.length = m.next) :
    (canAlloc n = true →
      ∃ b m2, Buffer.create canAlloc n m = .ok (b, m2)
        ∧ b.size_ = n
        ∧ ∃ bytes, Buffer.to_string m2 b = some bytes ∧ bytes.length = n)
    ∧ (canAlloc n = false →
      Buffer.create canAlloc n m = .error .badAlloc) := by
  constructor
  · intro hok
    have hres : Buffer.create canAlloc n m
        = .ok ({ data_ := some m.next, size_ := n },
               { next := m.next + 1,
                 contents := m.contents ++ [List.replicate n 0],
                 freed := m.freed }) := by
      unfold Buffer.create
      rw [hok]
      simp
    refine ⟨_, _, hres, rfl, ?_⟩
    refine ⟨List.replicate n 0, ?_, by simp⟩
    cases n with
    | zero => simp [Buffer.to_string, Mem.read]
    | succ k =>
      simp only [Buffer.to_string, Mem.read]
      rw [if_neg (by simp)]
      have hlook : (m.contents ++ [List.replicate (k + 1) 0])[m.next]?
          = some (List.replicate (k + 1) 0) := by
        rw [← hwf]
        simp
      rw [hlook]
      simp
  · intro hno
    unfold Buffer.create
    rw [hno]
    simp

/-- C5 witness: the theorem applied at size 3 on the empty memory with an
allocator that satisfies every request. -/
theorem claim_C5_witness :
    (⟨0, [], []⟩ : Mem).contents.length = (⟨0, [], []⟩ : Mem).next
    ∧ (((fun _ => true) : Nat → Bool) 3 = true →
        ∃ b m2, Buffer.create (fun _ => true) 3 ⟨0, [], []⟩ = .ok (b, m2)
          ∧ b.size_ = 3
          ∧ ∃ bytes, Buffer.to_string m2 b = some bytes ∧ bytes.length = 3)
    ∧ (((fun _ => true) : Nat → Bool) 3 = false →
        Buffer.create (fun _ => true) 3 ⟨0, [], []⟩ = .error .badAlloc) :=
  ⟨rfl, (claim_C5_sized_construction (fun _ => true) 3 ⟨0, [], []⟩ rfl).1,
    (claim_C5_sized_construction (fun _ => true) 3 ⟨0, [], []⟩ rfl).2⟩

/-- C6: Textual construction: `create(text)` allocates a buffer whose size
equals the size of the input and whose contents are a byte-for-byte copy
of the input's bytes, so `renderAsText` (`to_string`) on the new handle
returns the input text.  The input ranges over NUL-free byte sequences
(the bytes of a C string up to its terminator). -/
theorem claim_C6_textual_construction (canAlloc : Nat → Bool)
    (s : List Nat) (m : Mem) (hnz : ∀ c ∈ s, c ≠ 0)
    (hok : canAlloc s.length = true) (hwf : m.contents.length = m.next) :
    ∃ b m2, Buffer.fromCStr canAlloc s m = .ok (b, m2)
      ∧ b.size_ = s.length
      ∧ Buffer.to_string m2 b = some s := by
  obtain ⟨b, m2, hres, hb, _, _, _, hread⟩ :=
    fromCStr_spec canAlloc s m hnz hok hwf
  exact ⟨b, m2, hres, by rw [hb], hread⟩

/-- C6 witness: the theorem applied to the two-byte text `[104, 105]`
("hi") on the empty memory. -/
theorem claim_C6_witness :
    (∀ c ∈ [104, 105], c ≠ 0)
    ∧ ((fun _ => true) : Nat → Bool) ([104, 105].length) = true
    ∧ (⟨0, [], []⟩ : Mem).contents.length = (⟨0, [], []⟩ : Mem).next
    ∧ ∃ b m2, Buffer.fromCStr (fun _ => true) [104, 105] ⟨0, [], []⟩
          = .ok (b, m2)
        ∧ b.size_ = [104, 105].length
        ∧ Buffer.to_string m2 b = some [104, 105] :=
  ⟨by decide, rfl, rfl,
    claim_C6_textual_construction (fun _ => true) [104, 105] ⟨0, [], []⟩
      (by decide) rfl rfl⟩

/-- C7: Value-category-sensitive dispatch: `describeAccessContext`
(`Buffer::test`) invoked on a temporary (r-value receiver) emits the
transient-value report, invoked on a named live instance (l-value
receiver) emits the persistent-value report; the two reports differ, and
the choice depends only on the value category of the receiver, never on
the receiver instance (both overloads take the same receiver type). -/
theorem claim_C7_value_category_dispatch (b b2 : Buffer) :
    Buffer.test b .rvalue = "test: \x27this\x27 is a r-value"
    ∧ Buffer.test b .lvalue = "test: \x27this\x27 is a l-value"
    ∧ Buffer.test b .rvalue ≠ Buffer.test b .lvalue
    ∧ (∀ c, Buffer.test b c = Buffer.test b2 c) := by
  refine ⟨rfl, rfl, by simp only [Buffer.test]; decide, ?_⟩
  intro c
  cases c <;> rfl

/-- C8: Forwarding preserves value category: `work_buffer` deduces its
template argument from the call site, and `std::forward` restores exactly
the original value category for the inner `test()` call — a named live
handle yields the persistent (l-value) report, a freshly constructed
temporary yields the transient (r-value) report, through the layer of
indirection. -/
theorem claim_C8_perfect_forwarding (b : Buffer) :
    (∀ c, work_buffer c b = Buffer.test b c)
    ∧ work_buffer .lvalue b = "test: \x27this\x27 is a l-value"
    ∧ work_buffer .rvalue b = "test: \x27this\x27 is a r-value" := by
  refine ⟨?_, rfl, rfl⟩
  intro c
  cases c <;> rfl

/-- C9: Factory return contract: `make_buffer` constructs its result as a
local handle containing "new buffer" and returns it by value with no
explicit transfer on the return expression; the caller receives a handle
whose content reads back as "new buffer", and exactly one allocation
occurs (the allocation counter advances by exactly one, and the returned
handle owns precisely that fresh allocation — no intermediate
duplicate). -/
theorem claim_C9_factory_return (canAlloc : Nat → Bool) (m : Mem)
    (hok : canAlloc newBufferBytes.length = true)
    (hwf : m.contents.length = m.next) :
    ∃ b m2, make_buffer canAlloc m = .ok (b, m2)
      ∧ Buffer.to_string m2 b = some newBufferBytes
      ∧ m2.next = m.next + 1
      ∧ b.data_ = some m.next
      ∧ b.size_ = newBufferBytes.length := by
  obtain ⟨b, m2, hres, hb, hnext, _, _, hread⟩ :=
    fromCStr_spec canAlloc newBufferBytes m (by decide) hok hwf
  exact ⟨b, m2, hres, hread, hnext, by rw [hb], by rw [hb]⟩

/-- C9 witness: the factory run on the empty memory with an allocator that
satisfies every request. -/
theorem claim_C9_witness :
    ((fun _ => true) : Nat → Bool) newBufferBytes.length = true
    ∧ (⟨0, [], []⟩ : Mem).contents.length = (⟨0, [], []⟩ : Mem).next
    ∧ ∃ b m2, make_buffer (fun _ => true) ⟨0, [], []⟩ = .ok (b, m2)
        ∧ Buffer.to_string m2 b = some newBufferBytes
        ∧ m2.next = (⟨0, [], []⟩ : Mem).next + 1
        ∧ b.data_ = some (⟨0, [], []⟩ : Mem).next
        ∧ b.size_ = newBufferBytes.length :=
  ⟨rfl, rfl, claim_C9_factory_return (fun _ => true) ⟨0, [], []⟩ rfl rfl⟩

/-- C10: A handle left empty by a transfer-out (`data_ = nullptr`,
`size_ = 0`) — the source of a move construction or of a move assignment
— can still be read with `to_string`: the read does not fault and yields
zero bytes of content, in any memory. -/
theorem claim_C10_moved_from_readable (m : Mem) (b bd : Buffer) :
    (Buffer.moveCtor b).2.data_ = none
    ∧ (Buffer.moveCtor b).2.size_ = 0
    ∧ Buffer.to_string m (Buffer.moveCtor b).2 = some []
    ∧ (Buffer.moveAssign bd b m).2.1.data_ = none
    ∧ (Buffer.moveAssign bd b m).2.1.size_ = 0
    ∧ Buffer.to_string ((Buffer.moveAssign bd b m).2.2)
        (Buffer.moveAssign bd b m).2.1 = some [] :=
  ⟨rfl, rfl, rfl, rfl, rfl, rfl⟩

/-- C1: Ownership transfer in the construction form: move-constructing a
new handle from the handle in slot `src` gives the new handle exactly the
buffer reference and size the source held, leaves the source empty
(`data_ = none`, `size_ = 0`), and copies no bytes (the memory — contents,
allocation counter and release log — is completely untouched).  The
destination is a freshly created instance, so it can never alias the
source: the self-transfer situation cannot arise in the construction form,
and in particular no transfer-construction ever changes an instance other
than by emptying the source. -/
theorem claim_C1_transfer_construction (canAlloc : Nat → Bool) (s : State)
    (src : Nat) (b : Buffer) (hsrc : s.handles[src]? = some (some b)) :
    (step canAlloc (.moveCtorInto src) s).handles.length
        = s.handles.length + 1
    ∧ src ≠ s.handles.length
    ∧ (step canAlloc (.moveCtorInto src) s).handles[s.handles.length]?
        = some (some { data_ := b.data_, size_ := b.size_ })
    ∧ (step canAlloc (.moveCtorInto src) s).handles[src]?
        = some (some { data_ := none, size_ := 0 })
    ∧ (step canAlloc (.moveCtorInto src) s).mem = s.mem := by
  obtain ⟨hlt, hget⟩ := List.getElem?_eq_some.mp hsrc
  have hs2 : step canAlloc (.moveCtorInto src) s
      = { handles := (s.handles.set src (some { data_ := none, size_ := 0 }))
            ++ [some { data_ := b.data_, size_ := b.size_ }],
          mem := s.mem } := by
    simp only [step, hsrc, Buffer.moveCtor]
  rw [hs2]
  refine ⟨by simp, by omega, ?_, ?_, rfl⟩
  · rw [List.getElem?_append_right (by simp)]
    simp
  · rw [List.getElem?_append_left (by simpa using hlt)]
    rw [List.getElem?_set_self (by simpa using hlt)]

/-- C1 witness: transfer-construction from a one-handle state owning
allocation 0 with seven bytes. -/
theorem claim_C1_witness :
    (⟨[some ⟨some 0, 7⟩], ⟨1, [[1, 2, 3, 4, 5, 6, 7]], []⟩⟩ :
        State).handles[0]? = some (some ⟨some 0, 7⟩)
    ∧ ((step (fun _ => true) (.moveCtorInto 0)
          ⟨[some ⟨some 0, 7⟩], ⟨1, [[1, 2, 3, 4, 5, 6, 7]], []⟩⟩).handles.length
        = (⟨[some ⟨some 0, 7⟩], ⟨1, [[1, 2, 3, 4, 5, 6, 7]], []⟩⟩ :
            State).handles.length + 1
      ∧ 0 ≠ (⟨[some ⟨some 0, 7⟩], ⟨1, [[1, 2, 3, 4, 5, 6, 7]], []⟩⟩ :
            State).handles.length
      ∧ (step (fun _ => true) (.moveCtorInto 0)
          ⟨[some ⟨some 0, 7⟩], ⟨1, [[1, 2, 3, 4, 5, 6, 7]], []⟩⟩).handles[
            (⟨[some ⟨some 0, 7⟩], ⟨1, [[1, 2, 3, 4, 5, 6, 7]], []⟩⟩ :
              State).handles.length]?
          = some (some { data_ := (⟨some 0, 7⟩ : Buffer).data_,
                         size_ := (⟨some 0, 7⟩ : Buffer).size_ })
      ∧ (step (fun _ => true) (.moveCtorInto 0)
          ⟨[some ⟨some 0, 7⟩], ⟨1, [[1, 2, 3, 4, 5, 6, 7]], []⟩⟩).handles[0]?
          = some (some { data_ := none, size_ := 0 })
      ∧ (step (fun _ => true) (.moveCtorInto 0)
          ⟨[some ⟨some 0, 7⟩], ⟨1, [[1, 2, 3, 4, 5, 6, 7]], []⟩⟩).mem
          = (⟨[some ⟨some 0, 7⟩], ⟨1, [[1, 2, 3, 4, 5, 6, 7]], []⟩⟩ :
              State).mem) :=
  ⟨rfl, claim_C1_transfer_construction (fun _ => true)
    ⟨[some ⟨some 0, 7⟩], ⟨1, [[1, 2, 3, 4, 5, 6, 7]], []⟩⟩ 0
    ⟨some 0, 7⟩ rfl⟩

/-- C2: Ownership transfer in the assignment form: for two distinct handle
objects, move assignment releases the destination's current buffer
exactly once (the release log gains its allocation id if the destination
held one, and nothing else changes in memory), then the destination takes
the source's buffer reference and size and the source is left empty.
When destination and source are the same object, the explicitly guarded
self-assignment leaves the whole state exactly as it was: no content
loss, no release at all. -/
theorem claim_C2_transfer_assignment (canAlloc : Nat → Bool) (s : State)
    (dst src : Nat) (bd bs : Buffer)
    (hdst : s.handles[dst]? = some (some bd))
    (hsrc : s.handles[src]? = some (some bs)) :
    (dst = src → step canAlloc (.moveAssign dst src) s = s)
    ∧ (dst ≠ src →
        (step canAlloc (.moveAssign dst src) s).handles[dst]?
            = some (some { data_ := bs.data_, size_ := bs.size_ })
        ∧ (step canAlloc (.moveAssign dst src) s).handles[src]?
            = some (some { data_ := none, size_ := 0 })
        ∧ (step canAlloc (.moveAssign dst src) s).mem
            = s.mem.release bd.data_
        ∧ (s.mem.release bd.data_).contents = s.mem.contents
        ∧ (s.mem.release bd.data_).next = s.mem.next
        ∧ (step canAlloc (.moveAssign dst src) s).handles.length
            = s.handles.length) := by
  obtain ⟨hltd, hgetd⟩ := List.getElem?_eq_some.mp hdst
  obtain ⟨hlts, hgets⟩ := List.getElem?_eq_some.mp hsrc
  constructor
  · intro hds
    simp only [step, if_pos hds]
  · intro hds
    have hs2 : step canAlloc (.moveAssign dst src) s
        = { handles := (s.handles.set dst
              (some { data_ := bs.data_, size_ := bs.size_ })).set src
              (some { data_ := none, size_ := 0 }),
            mem := s.mem.release bd.data_ } := by
      simp only [step, if_neg hds, hdst, hsrc, Buffer.moveAssign]
    have hcontents : (s.mem.release bd.data_).contents = s.mem.contents := by
      cases bd.data_ <;> rfl
    have hnext : (s.mem.release bd.data_).next = s.mem.next := by
      cases bd.data_ <;> rfl
    rw [hs2]
    refine ⟨?_, ?_, rfl, hcontents, hnext, by simp⟩
    · rw [List.getElem?_set_ne (fun h2 => hds h2.symm)]
      rw [List.getElem?_set_self (by simpa using hltd)]
    · rw [List.getElem?_set_self (by simpa using hlts)]

/-- C2 witness: self-assignment and distinct-assignment on a two-handle
state, the destination owning allocation 0 and the source allocation 1. -/
theorem claim_C2_witness :
    (⟨[some ⟨some 0, 2⟩, some ⟨some 1, 3⟩],
        ⟨2, [[7, 8], [4, 5, 6]], []⟩⟩ : State).handles[0]?
        = some (some ⟨some 0, 2⟩)
    ∧ (⟨[some ⟨some 0, 2⟩, some ⟨some 1, 3⟩],
        ⟨2, [[7, 8], [4, 5, 6]], []⟩⟩ : State).handles[1]?
        = some (some ⟨some 1, 3⟩)
    ∧ ((0 : Nat) = 0 → step (fun _ => true) (.moveAssign 0 0)
        ⟨[some ⟨some 0, 2⟩, some ⟨some 1, 3⟩], ⟨2, [[7, 8], [4, 5, 6]], []⟩⟩
        = ⟨[some ⟨some 0, 2⟩, some ⟨some 1, 3⟩],
            ⟨2, [[7, 8], [4, 5, 6]], []⟩⟩)
    ∧ ((0 : Nat) ≠ 1 →
        (step (fun _ => true) (.moveAssign 0 1)
            ⟨[some ⟨some 0, 2⟩, some ⟨some 1, 3⟩],
              ⟨2, [[7, 8], [4, 5, 6]], []⟩⟩).handles[0]?
          = some (some { data_ := (⟨some 1, 3⟩ : Buffer).data_,
                         size_ := (⟨some 1, 3⟩ : Buffer).size_ })
        ∧ (step (fun _ => true) (.moveAssign 0 1)
            ⟨[some ⟨some 0, 2⟩, some ⟨some 1, 3⟩],
              ⟨2, [[7, 8], [4, 5, 6]], []⟩⟩).handles[1]?
          = some (some { data_ := none, size_ := 0 })
        ∧ (step (fun _ => true) (.moveAssign 0 1)
            ⟨[some ⟨some 0, 2⟩, some ⟨some 1, 3⟩],
              ⟨2, [[7, 8], [4, 5, 6]], []⟩⟩).mem
          = (⟨2, [[7, 8], [4, 5, 6]], []⟩ : Mem).release
              (⟨some 0, 2⟩ : Buffer).data_
        ∧ ((⟨2, [[7, 8], [4, 5, 6]], []⟩ : Mem).release
            (⟨some 0, 2⟩ : Buffer).data_).contents
          = (⟨2, [[7, 8], [4, 5, 6]], []⟩ : Mem).contents
        ∧ ((⟨2, [[7, 8], [4, 5, 6]], []⟩ : Mem).release
            (⟨some 0, 2⟩ : Buffer).data_).next
          = (⟨2, [[7, 8], [4, 5, 6]], []⟩ : Mem).next
        ∧ (step (fun _ => true) (.moveAssign 0 1)
            ⟨[some ⟨some 0, 2⟩, some ⟨some 1, 3⟩],
              ⟨2, [[7, 8], [4, 5, 6]], []⟩⟩).handles.length
          = (⟨[some ⟨some 0, 2⟩, some ⟨some 1, 3⟩],
              ⟨2, [[7, 8], [4, 5, 6]], []⟩⟩ : State).handles.length) :=
  ⟨rfl, rfl,
    (claim_C2_transfer_assignment (fun _ => true)
      ⟨[some ⟨some 0, 2⟩, some ⟨some 1, 3⟩], ⟨2, [[7, 8], [4, 5, 6]], []⟩⟩
      0 0 ⟨some 0, 2⟩ ⟨some 0, 2⟩ rfl rfl).1,
    (claim_C2_transfer_assignment (fun _ => true)
      ⟨[some ⟨some 0, 2⟩, some ⟨some 1, 3⟩], ⟨2, [[7, 8], [4, 5, 6]], []⟩⟩
      0 1 ⟨some 0, 2⟩ ⟨some 1, 3⟩ rfl rfl).2⟩

/-- The state reached by allocating one zero-byte buffer and destroying
its handle: one allocation handed out, no live owner, released once. -/
theorem Inv_example : Inv ⟨[none], ⟨1, [[]], [0]⟩⟩ := by
  intro a
  cases a with
  | zero => simp [countOwn, ownsP, List.count_cons]
  | succ k =>
    simp [countOwn, ownsP, List.count_cons]

/-- C3: Exclusive-ownership invariant: every operation of the handle type
(construction, transfer-construction, transfer-assignment, destruction)
preserves the accounting invariant `Inv`; under `Inv` at most one live
handle owns any given allocation; and once every handle has been
destroyed, every allocation ever handed out has been released exactly
once — not zero times and not twice. -/
theorem claim_C3_exclusive_ownership (canAlloc : Nat → Bool) (op : Op)
    (s : State) (hInv : Inv s) :
    Inv (step canAlloc op s)
    ∧ (∀ a, countOwn s.handles a ≤ 1)
    ∧ ((∀ ob ∈ s.handles, ob = none) →
        ∀ a, a < s.mem.next → s.mem.freed.count a = 1) := by
  refine ⟨Inv_step canAlloc op s hInv, ?_, ?_⟩
  · intro a
    have ha := hInv a
    by_cases hlt : a < s.mem.next
    · rw [if_pos hlt] at ha
      omega
    · rw [if_neg hlt] at ha
      omega
  · intro hall a hlt
    have hz : countOwn s.handles a = 0 := by
      rw [countOwn, List.countP_eq_zero]
      intro ob hob
      rw [hall ob hob]
      simp [ownsP]
    have ha := hInv a
    rw [hz, if_pos hlt] at ha
    omega

/-- C3 witness: the invariant holds in the state with one released
allocation and one destroyed handle, and the theorem applies there with
the transfer-construction operation. -/
theorem claim_C3_witness :
    Inv ⟨[none], ⟨1, [[]], [0]⟩⟩
    ∧ (Inv (step (fun _ => true) (.moveCtorInto 0) ⟨[none], ⟨1, [[]], [0]⟩⟩)
      ∧ (∀ a, countOwn ([none] : List (Option Buffer)) a ≤ 1)
      ∧ ((∀ ob ∈ ([none] : List (Option Buffer)), ob = none) →
          ∀ a, a < (⟨1, [[]], [0]⟩ : Mem).next →
            (⟨1, [[]], [0]⟩ : Mem).freed.count a = 1)) :=
  ⟨Inv_example,
    claim_C3_exclusive_ownership (fun _ => true) (.moveCtorInto 0)
      ⟨[none], ⟨1, [[]], [0]⟩⟩ Inv_example⟩

/-- C4: Duplication is excluded from the capability set: after any
operation of the type's interface, no allocation is owned by two live
handles; the interface consists exactly of sized construction, textual
construction, transfer-construction, transfer-assignment and destruction
(there is no copy operation — the copy constructor and copy assignment
are `= delete`d, so a duplicating call shape does not type-check and is
not representable in `Op`); and neither transfer form silently
deep-copies: transfers allocate nothing and write no bytes. -/
theorem claim_C4_no_duplication (canAlloc : Nat → Bool) (op : Op)
    (s : State) (hInv : Inv s) :
    (∀ a, countOwn (step canAlloc op s).handles a ≤ 1)
    ∧ ((∃ n, op = .mkSize n) ∨ (∃ str, op = .mkStr str)
        ∨ (∃ src, op = .moveCtorInto src)
        ∨ (∃ dst src, op = .moveAssign dst src)
        ∨ (∃ hh, op = .destroy hh))
    ∧ (∀ src, (step canAlloc (.moveCtorInto src) s).mem.contents
          = s.mem.contents
        ∧ (step canAlloc (.moveCtorInto src) s).mem.next = s.mem.next)
    ∧ (∀ dst src, (step canAlloc (.moveAssign dst src) s).mem.contents
          = s.mem.contents
        ∧ (step canAlloc (.moveAssign dst src) s).mem.next = s.mem.next) := by
  refine ⟨?_, ?_, ?_, ?_⟩
  · have h2 := Inv_step canAlloc op s hInv
    intro a
    have ha := h2 a
    by_cases hlt : a < (step canAlloc op s).mem.next
    · rw [if_pos hlt] at ha
      omega
    · rw [if_neg hlt] at ha
      omega
  · cases op with
    | mkSize n => exact Or.inl ⟨n, rfl⟩
    | mkStr str => exact Or.inr (Or.inl ⟨str, rfl⟩)
    | moveCtorInto src => exact Or.inr (Or.inr (Or.inl ⟨src, rfl⟩))
    | moveAssign dst src =>
      exact Or.inr (Or.inr (Or.inr (Or.inl ⟨dst, src, rfl⟩)))
    | destroy hh => exact Or.inr (Or.inr (Or.inr (Or.inr ⟨hh, rfl⟩)))
  · intro src
    constructor <;> (simp only [step]; split <;> rfl)
  · intro dst src
    constructor <;>
      (simp only [step]
       split
       · rfl
       · split
         next bd bs hd hs2 =>
           simp only [Buffer.moveAssign]
           cases bd.data_ <;> rfl
         next => rfl)

/-- C4 witness: the theorem applied with the transfer-assignment
operation on the state with one released allocation. -/
theorem claim_C4_witness :
    Inv ⟨[none], ⟨1, [[]], [0]⟩⟩
    ∧ ((∀ a, countOwn (step (fun _ => true) (.moveAssign 0 0)
          ⟨[none], ⟨1, [[]], [0]⟩⟩).handles a ≤ 1)
      ∧ ((∃ n, (Op.moveAssign 0 0) = .mkSize n)
          ∨ (∃ str, (Op.moveAssign 0 0) = .mkStr str)
          ∨ (∃ src, (Op.moveAssign 0 0) = .moveCtorInto src)
          ∨ (∃ dst src, (Op.moveAssign 0 0) = .moveAssign dst src)
          ∨ (∃ hh, (Op.moveAssign 0 0) = .destroy hh))
      ∧ (∀ src, (step (fun _ => true) (.moveCtorInto src)
            ⟨[none], ⟨1, [[]], [0]⟩⟩).mem.contents
            = (⟨1, [[]], [0]⟩ : Mem).contents
          ∧ (step (fun _ => true) (.moveCtorInto src)
              ⟨[none], ⟨1, [[]], [0]⟩⟩).mem.next
            = (⟨1, [[]], [0]⟩ : Mem).next)
      ∧ (∀ dst src, (step (fun _ => true) (.moveAssign dst src)
            ⟨[none], ⟨1, [[]], [0]⟩⟩).mem.contents
            = (⟨1, [[]], [0]⟩ : Mem).contents
          ∧ (step (fun _ => true) (.moveAssign dst src)
              ⟨[none], ⟨1, [[]], [0]⟩⟩).mem.next
            = (⟨1, [[]], [0]⟩ : Mem).next)) :=
  ⟨Inv_example,
    claim_C4_no_duplication (fun _ => true) (.moveAssign 0 0)
      ⟨[none], ⟨1, [[]], [0]⟩⟩ Inv_example⟩

end MoveOnlyBuffer
